import Mathlib

/-!
Verification of the go-shopify-graphql bulk-operation core.

This file shallowly embeds, in Lean 4, the parts of the repository that the
checked claims are about:

* the bulk-result reconciliation parser `parseBulkQueryResult` together with
  the type resolver `concludeObjectType` (bulk.go);
* the throttle back-off and error propagation of the GraphQL client `do`
  (graphql client.go);
* the bulk-operation lifecycle helpers `WaitForCurrentBulkQuery`,
  `ShouldGetBulkQueryResultURL`, `GetCurrentBulkQueryResultURL` and
  `CancelRunningBulkQuery` (bulk.go).

Modelling conventions, stated once here:

* A result line (one JSONL record) is modelled as a flat association list
  from JSON field names to string values, which is exactly the shape the
  parser inspects (the `__parentId` and `id` fields are strings; the rest of
  the payload is carried opaquely).  Decoding a well-formed JSON object into
  a Go struct via jsoniter succeeds on such lines, so `json.Unmarshal` is
  total in the model.
* Go maps (`childrenLookup`, the per-parent children map) are modelled as
  association lists with in-place update (`assocSet`).  Go map iteration
  order is unspecified; the model iterates in insertion order.  This only
  affects which error message is reported when several field names are
  invalid, never whether an error is reported, and assignments to distinct
  struct fields commute, so observable outcomes agree.
* The reflective parent-identifier read (`parent.FieldByName("ID")`,
  `IsZero`, `.Interface().(string)`) is modelled by reading the string value
  of the decoded `id` JSON field, with the absent field read as the empty
  string (the zero value).  The parent record types themselves
  (`Order`, ...) are not among the provided sources; per the spec every
  parent exposes a stable string identifier field, decoded from `id`.
* Go float64 cost values are modelled as exact rationals; the claims touch
  only exactly representable values and exact operations on them.
* Error message strings are reproduced from the source except that
  apostrophes and Go type names interpolated by reflection are omitted.
-/

/-! ## Association lists (model of Go maps and of JSON objects) -/

/-- Lookup in an association list keyed by strings (first match). -/
def alookup {α : Type} : List (String × α) → String → Option α
  | [], _ => none
  | (k, v) :: rest, key => if k = key then some v else alookup rest key

/-- In-place update of an association list: replaces the binding of `key`
if present, otherwise appends it.  Models a Go map assignment. -/
def assocSet {α : Type} : List (String × α) → String → α → List (String × α)
  | [], key, val => [(key, val)]
  | (k, v) :: rest, key, val =>
    if k = key then (key, val) :: rest else (k, v) :: assocSet rest key val

/-! ## The type resolver (`concludeObjectType`, bulk.go) -/

/-- A word character as matched by the Go regexp class `\w`
(ASCII letters, digits and underscore). -/
def isWordChar (c : Char) : Bool := c.isAlphanum || c = '_'

/-- Splits a character list at every `/` (the segments of a global
identifier). -/
def splitOnSlash : List Char → List (List Char)
  | [] => [[]]
  | c :: rest =>
    match splitOnSlash rest with
    | [] => [[c]]
    | w :: ws => if c = '/' then [] :: w :: ws else (c :: w) :: ws

/-- The submatch extraction of the compiled regexp
`^gid://shopify/(\w+)/\d+$` (`gidRegex` in bulk.go): returns the captured
resource-type segment when the global identifier has exactly the shape
`gid://shopify/<word+>/<digit+>`.  Since `\w` and `\d` both exclude `/`,
the regexp matches exactly the strings whose `/`-separated segments are
`["gid:", "", "shopify", resource, digits]` with `resource` a non-empty
run of word characters and `digits` a non-empty run of digits. -/
def gidResource (gid : String) : Option String :=
  match splitOnSlash gid.toList with
  | [g, e, s, res, num] =>
    if g = "gid:".toList && e = [] && s = "shopify".toList &&
        !res.isEmpty && res.all isWordChar && !num.isEmpty && num.all Char.isDigit then
      some (String.mk res)
    else
      none
  | _ => none

/-- The fixed resource tags of the resolver switch in `concludeObjectType`. -/
def knownResource (r : String) : Bool :=
  r = "LineItem" || r = "FulfillmentOrderLineItem" || r = "Metafield" || r = "Order" ||
  r = "Product" || r = "ProductVariant" || r = "Collection" || r = "ProductImage"

/-- `concludeObjectType` (bulk.go): maps a global identifier to the concrete
child record schema and the name of the parent collection field the child
belongs in.  The Go function returns a `reflect.Type` per known tag
(`LineItem{}`, ..., `ProductBulkResult{}` for `Product`); the model keeps
the resource tag itself as the schema descriptor, and every known case
computes the field name as `fmt.Sprintf("%ss", resource)`. -/
def concludeObjectType (gid : String) : Except String (String × String) :=
  match gidResource gid with
  | none => Except.error ("malformed gid=`" ++ gid ++ "`")
  | some resource =>
    if knownResource resource then
      Except.ok (resource, resource ++ "s")
    else
      Except.error ("`" ++ resource ++ "` not implemented type")

/-! ## The reconciliation parser (`parseBulkQueryResult`, bulk.go) -/

/-- One decoded JSONL record: a flat JSON object with string values. -/
abbrev Line := List (String × String)

/-- A parent record in the output slice: the decoded parent line plus the
named child collections attached by the reconciliation phase. -/
structure ParentRec where
  line : Line
  fields : List (String × List Line)
deriving DecidableEq, Repr

/-- The state of the scan loop: the output slice of parent records and the
children accumulator `childrenLookup`, keyed first by the parent-reference
value then by the target field name. -/
structure ParseState where
  out : List ParentRec
  childrenLookup : List (String × List (String × List Line))
deriving Repr

/-- One iteration of the scan loop of `parseBulkQueryResult` on a line that
was read successfully: lines carrying a `__parentId` field are child
records (fail without an `id`, resolve the type from it, and accumulate
under (parent reference, field name) preserving arrival order); all other
lines are parent records appended to the output slice. -/
def processLine (st : ParseState) (l : Line) : Except String ParseState :=
  match alookup l "__parentId" with
  | some parentID =>
    match alookup l "id" with
    | none => Except.error "Connection type must query `id` field"
    | some gid =>
      match concludeObjectType gid with
      | Except.error e => Except.error e
      | Except.ok (_, childrenFieldName) =>
        let children := (alookup st.childrenLookup parentID).getD []
        let childrenSlice := (alookup children childrenFieldName).getD []
        let children1 := assocSet children childrenFieldName (childrenSlice ++ [l])
        Except.ok { st with childrenLookup := assocSet st.childrenLookup parentID children1 }
  | none =>
    Except.ok { st with out := st.out ++ [{ line := l, fields := [] }] }

/-- A downloaded result file as seen through `bufio.Reader.ReadBytes`:
`lines` are the newline-terminated records in order, and `trailing` is a
final record not terminated by a newline, when there is one (`ReadBytes`
returns it together with `io.EOF`). -/
structure ResultFile where
  lines : List Line
  trailing : Option Line
deriving DecidableEq, Repr

/-- The scan loop of `parseBulkQueryResult`: processes each
newline-terminated line in order, stopping at the first line error (the
output slice keeps everything appended so far).  When the terminated lines
are exhausted, the next `ReadBytes` call returns `io.EOF` together with any
unterminated trailing bytes, and the loop breaks immediately, discarding
them undecoded. -/
def runLoop : ParseState → List Line → Option Line → ParseState × Option String
  | st, [], _ => (st, none)
  | st, l :: ls, t =>
    match processLine st l with
    | Except.error e => (st, some e)
    | Except.ok st1 => runLoop st1 ls t

/-- The reconciliation key of a parent record: the reflective read
`parent.FieldByName("ID")` of the decoded parent, i.e. the string value of
its `id` JSON field, the zero string when absent. -/
def parentKey (p : ParentRec) : String := (alookup p.line "id").getD ""

/-- The inner assignment loop of the reconciliation phase: assigns each
accumulated (field name, children) pair onto the parent, failing on a field
name the parent schema does not define.  `hasField` models
`parent.FieldByName(name).IsValid()` for the parent schema.  On failure the
parent keeps the fields assigned before the invalid one (in-place
mutation). -/
def attachChildren (hasField : String → Bool) :
    ParentRec → List (String × List Line) → ParentRec × Option String
  | p, [] => (p, none)
  | p, (k, v) :: rest =>
    if hasField k then
      attachChildren hasField { p with fields := assocSet p.fields k v } rest
    else
      (p, some ("Field " ++ k ++ " not defined on the parent type"))

/-- The reconciliation phase of `parseBulkQueryResult` (entered only when
`childrenLookup` is non-empty): walks the output slice in order; every
parent must expose a non-zero identifier; parents whose identifier matches
an accumulated key receive those children.  The walk stops at the first
error, leaving the slice with every earlier parent already reconciled. -/
def reconcileAll (hasField : String → Bool)
    (tbl : List (String × List (String × List Line))) :
    List ParentRec → List ParentRec × Option String
  | [] => ([], none)
  | p :: rest =>
    if parentKey p = "" then
      (p :: rest, some "No ID field on the first level")
    else
      match alookup tbl (parentKey p) with
      | none =>
        let r := reconcileAll hasField tbl rest
        (p :: r.1, r.2)
      | some children =>
        match attachChildren hasField p children with
        | (p1, none) =>
          let r := reconcileAll hasField tbl rest
          (p1 :: r.1, r.2)
        | (p1, some e) => (p1 :: rest, some e)

/-- `parseBulkQueryResult` (bulk.go), for a destination slice of parent
records: scans the newline-terminated lines, then, when any children were
accumulated, reconciles them onto the parents.  The returned pair is the
content of the caller-visible output slice together with the returned
error (`none` models the `nil` error; read-loop termination via `io.EOF`
is success). -/
def parseBulkQueryResult (hasField : String → Bool) (f : ResultFile) :
    List ParentRec × Option String :=
  match runLoop { out := [], childrenLookup := [] } f.lines f.trailing with
  | (st, some e) => (st.out, some e)
  | (st, none) =>
    match st.childrenLookup with
    | [] => (st.out, none)
    | _ :: _ => reconcileAll hasField st.childrenLookup st.out

/-- Modelled from the spec: the parent schema of the `Order` record type
(not among the provided sources).  Per the round-trip example, `LineItem`
children of an order are attached to its `LineItems` collection field, the
resource tag pluralized. -/
def orderSchema : String → Bool := fun fieldName => fieldName = "LineItems"

/-! ### Derived stream-side descriptions used in the statements -/

/-- A line is a parent record exactly when it carries no `__parentId`. -/
def isParentLine (l : Line) : Bool := (alookup l "__parentId").isNone

/-- The accumulator slot a child line is appended to: its parent reference
paired with the resolved field name, when the line has an identifier whose
type tag resolves. -/
def childTarget (l : Line) : Option (String × String) :=
  match alookup l "__parentId" with
  | none => none
  | some pid =>
    match alookup l "id" with
    | none => none
    | some gid =>
      match concludeObjectType gid with
      | Except.ok (_, fieldName) => some (pid, fieldName)
      | Except.error _ => none

/-- A line the scan loop processes without error. -/
def lineOk (l : Line) : Bool := isParentLine l || (childTarget l).isSome

/-- The child lines of a stream destined for a given (parent reference,
field name) slot, in arrival order. -/
def childrenFor (ls : List Line) (pid fieldName : String) : List Line :=
  ls.filter fun l => decide (childTarget l = some (pid, fieldName))

/-- The children attached to a parent record under a field name. -/
def childrenOf (p : ParentRec) (fieldName : String) : List Line :=
  (alookup p.fields fieldName).getD []

/-- The children accumulated in a parse state for a (parent reference,
field name) slot. -/
def lookupChildren (st : ParseState) (pid fieldName : String) : List Line :=
  (alookup ((alookup st.childrenLookup pid).getD []) fieldName).getD []

/-- Well-formedness of the children accumulator: per-parent field maps have
duplicate-free keys and never hold an empty children slice. -/
def tblWF (tbl : List (String × List (String × List Line))) : Prop :=
  ∀ pid ch, alookup tbl pid = some ch →
    (ch.map Prod.fst).Nodup ∧ ∀ kv ∈ ch, kv.2 ≠ ([] : List Line)

/-- The per-parent result of a successful reconciliation pass: the parent
together with its accumulated children attached (unchanged when no children
were accumulated under its key). -/
def attachAll (hasField : String → Bool)
    (tbl : List (String × List (String × List Line))) (p : ParentRec) : ParentRec :=
  match alookup tbl (parentKey p) with
  | none => p
  | some children => (attachChildren hasField p children).1

/-! ## The GraphQL client transport (`do`, graphql client.go) -/

/-- One entry of the `errors` array of a GraphQL response. -/
structure GraphQLError where
  message : String
deriving DecidableEq, Repr

/-- The throttle status of the cost extension envelope. -/
structure ThrottleStatus where
  maximumAvailable : ℚ
  currentlyAvailable : ℚ
  restoreRate : ℚ
deriving DecidableEq, Repr

/-- The cost extension envelope of a response. -/
structure Cost where
  requestedQueryCost : ℚ
  actualQueryCost : ℚ
  throttleStatus : ThrottleStatus
deriving DecidableEq, Repr

/-- The `extensions` object of a response. -/
structure Extensions where
  cost : Option Cost
deriving DecidableEq, Repr

/-- The decoded response envelope as `do` sees it after the HTTP round
trip: whether the body decode errored, whether `data` is non-null and
whether unmarshalling it into the destination errored, the service errors
and the extensions. -/
structure GraphQLOut where
  decodeError : Option String
  dataPresent : Bool
  dataUnmarshalError : Option String
  errs : List GraphQLError
  extensions : Option Extensions
deriving DecidableEq, Repr

/-- The throttle back-off of `do`: when the response carries at least one
error whose first message is `"Throttled"` together with a cost envelope,
and the available budget is below the requested cost, `do` sleeps
`math.Ceil((requestedQueryCost - currentlyAvailable) / restoreRate)`
seconds; otherwise it does not sleep (a `time.Sleep` of a non-positive
duration returns immediately, so 0 models it).  Division by a zero restore
rate is outside the model (Go would compute an infinite float). -/
def throttleSleepSeconds (out : GraphQLOut) : ℤ :=
  match out.errs with
  | [] => 0
  | e :: _ =>
    match out.extensions with
    | none => 0
    | some ext =>
      if e.message = "Throttled" then
        match ext.cost with
        | some c =>
          if c.throttleStatus.currentlyAvailable < c.requestedQueryCost then
            ⌈(c.requestedQueryCost - c.throttleStatus.currentlyAvailable) /
              c.throttleStatus.restoreRate⌉
          else 0
        | none => 0
      else 0

/-- The possible outcomes of one `do` call after the HTTP round trip. -/
inductive DoError where
  | decodeFailure (msg : String)
  | unmarshalFailure (msg : String)
  | serviceErrors (errs : List GraphQLError)
deriving DecidableEq, Repr

/-- The result `do` surfaces after the (possible) throttle sleep, in source
order: a body decode error first, then a `data` unmarshal error, then the
service-reported error list when non-empty, else success.  `do` performs
exactly one request: there is no resubmission path. -/
def doResult (out : GraphQLOut) : Except DoError Unit :=
  match out.decodeError with
  | some e => Except.error (DoError.decodeFailure e)
  | none =>
    match out.dataPresent, out.dataUnmarshalError with
    | true, some e => Except.error (DoError.unmarshalFailure e)
    | _, _ =>
      match out.errs with
      | [] => Except.ok ()
      | e :: es => Except.error (DoError.serviceErrors (e :: es))

/-! ## The bulk-operation lifecycle controller (bulk.go) -/

/-- The `CurrentBulkOperation` snapshot (identifier fields modelled as
strings; `graphql.ID` values are strings in these snapshots). -/
structure CurrentBulkOperation where
  id : String
  status : String
  errorCode : String
  createdAt : String
  completedAt : String
  objectCount : String
  fileSize : String
  url : String
  partialDataURL : String
  query : String
deriving DecidableEq, Repr

/-- The zero `CurrentBulkOperation{}` value `GetCurrentBulkQuery` returns
alongside an error. -/
def zeroOp : CurrentBulkOperation :=
  { id := "", status := "", errorCode := "", createdAt := "", completedAt := "",
    objectCount := "", fileSize := "", url := "", partialDataURL := "", query := "" }

/-- The in-flight statuses the wait loops poll through. -/
def statusInFlight (s : String) : Bool :=
  s = "CREATED" || s = "RUNNING" || s = "CANCELING"

/-- `WaitForCurrentBulkQuery` (bulk.go), driven by the sequence of
`GetCurrentBulkQuery` outcomes it observes: fetches a snapshot, re-fetching
after each poll interval while the status is CREATED, RUNNING or CANCELING;
a fetch error is returned at once (with the zero snapshot), wrapped as a
`CurrentBulkOperation query error`.  `none` models a poll sequence
exhausted while still in flight (the loop has not returned). -/
def WaitForCurrentBulkQuery :
    List (Except String CurrentBulkOperation) →
    Option (CurrentBulkOperation × Option String)
  | [] => none
  | Except.error e :: _ => some (zeroOp, some ("CurrentBulkOperation query error: " ++ e))
  | Except.ok q :: rest =>
    if statusInFlight q.status then WaitForCurrentBulkQuery rest else some (q, none)

/-- `ShouldGetBulkQueryResultURL` (bulk.go), driven by the outcome of its
initial `GetCurrentBulkQuery` and the poll outcomes consumed by the inner
`WaitForCurrentBulkQuery`: checks the expected identifier when one is
supplied, waits for the current job, and then requires status COMPLETED and
an empty error code; a zero object count yields the empty URL with no
error, anything else yields the result URL.  The error returned by the wait
call is discarded by the source (only the snapshot is inspected). -/
def ShouldGetBulkQueryResultURL (fetch1 : Except String CurrentBulkOperation)
    (waitPolls : List (Except String CurrentBulkOperation)) (id : Option String) :
    Option (Except String String) :=
  match fetch1 with
  | Except.error e => some (Except.error e)
  | Except.ok q =>
    if (match id with | some i => decide (q.id ≠ i) | none => false) then
      some (Except.error ("Bulk operation ID does not match, got=" ++ q.id ++
        ", want=" ++ (id.getD "")))
    else
      match WaitForCurrentBulkQuery waitPolls with
      | none => none
      | some (q2, _) =>
        if q2.status ≠ "COMPLETED" then
          some (Except.error ("Bulk operation did not complete, status=" ++ q2.status ++
            ", error_code=" ++ q2.errorCode))
        else if q2.errorCode ≠ "" then
          some (Except.error ("Bulk operation error: " ++ q2.errorCode))
        else if q2.objectCount = "0" then
          some (Except.ok "")
        else
          some (Except.ok q2.url)

/-- `GetCurrentBulkQueryResultURL` (bulk.go): delegates with a nil expected
identifier. -/
def GetCurrentBulkQueryResultURL (fetch1 : Except String CurrentBulkOperation)
    (waitPolls : List (Except String CurrentBulkOperation)) :
    Option (Except String String) :=
  ShouldGetBulkQueryResultURL fetch1 waitPolls none

/-- The environment one `CancelRunningBulkQuery` call observes: the outcome
of its initial snapshot fetch, the outcome of the cancel mutation were it
issued (a transport error or the user-error messages), and the snapshot
fetch outcomes of the post-cancel poll loop. -/
structure CancelEnv where
  fetch1 : Except String CurrentBulkOperation
  mutationOutcome : Except String (List String)
  refetches : List (Except String CurrentBulkOperation)
deriving Repr

/-- The post-cancel poll loop of `CancelRunningBulkQuery`: re-fetches while
the status is CREATED, RUNNING or CANCELING; a fetch error is returned
as-is; `none` models a sequence exhausted while still in flight. -/
def cancelSpin : List (Except String CurrentBulkOperation) → Option (Option String)
  | [] => none
  | Except.error e :: _ => some (some e)
  | Except.ok q :: rest =>
    if statusInFlight q.status then cancelSpin rest else some none

/-- `CancelRunningBulkQuery` (bulk.go): fetches the current snapshot; only
when its status is CREATED or RUNNING does it issue the cancel mutation and
then poll until the job leaves the in-flight statuses.  The result is the
pair (was the cancel mutation issued, returned error), `none` when the
post-cancel poll loop has not terminated. -/
def CancelRunningBulkQuery (env : CancelEnv) : Option (Bool × Option String) :=
  match env.fetch1 with
  | Except.error e => some (false, some e)
  | Except.ok q =>
    if q.status = "CREATED" || q.status = "RUNNING" then
      match env.mutationOutcome with
      | Except.error e => some (true, some e)
      | Except.ok userErrors =>
        match userErrors with
        | _ :: _ => some (true, some ("bulk operation cancel user errors: " ++
            String.intercalate ", " userErrors))
        | [] =>
          match cancelSpin env.refetches with
          | none => none
          | some e => some (true, e)
    else
      some (false, none)

/-! ## Lemmas about association lists -/

theorem assocSet_cons_eq {α : Type} {k0 k : String} (hk : k0 = k) (v0 v : α)
    (rest : List (String × α)) :
    assocSet ((k0, v0) :: rest) k v = (k, v) :: rest := by
  simp [assocSet, hk]

theorem assocSet_cons_ne {α : Type} {k0 k : String} (hk : ¬k0 = k) (v0 v : α)
    (rest : List (String × α)) :
    assocSet ((k0, v0) :: rest) k v = (k0, v0) :: assocSet rest k v := by
  simp [assocSet, hk]

theorem alookup_assocSet_self {α : Type} (l : List (String × α)) (k : String) (v : α) :
    alookup (assocSet l k v) k = some v := by
  induction l with
  | nil => simp [assocSet, alookup]
  | cons kv rest ih =>
    obtain ⟨k0, v0⟩ := kv
    by_cases h : k0 = k
    · rw [assocSet_cons_eq h]
      simp [alookup]
    · rw [assocSet_cons_ne h]
      simp [alookup, h, ih]

theorem alookup_assocSet_ne {α : Type} (l : List (String × α)) (k k' : String) (v : α)
    (h : k' ≠ k) : alookup (assocSet l k v) k' = alookup l k' := by
  have hne : ¬k = k' := fun he => h he.symm
  induction l with
  | nil => simp [assocSet, alookup, hne]
  | cons kv rest ih =>
    obtain ⟨k0, v0⟩ := kv
    by_cases h0 : k0 = k
    · rw [assocSet_cons_eq h0]
      subst h0
      simp [alookup, hne]
    · rw [assocSet_cons_ne h0]
      by_cases h1 : k0 = k' <;> simp [alookup, h1, ih]

theorem assocSet_ne_nil {α : Type} (l : List (String × α)) (k : String) (v : α) :
    assocSet l k v ≠ [] := by
  cases l with
  | nil => simp [assocSet]
  | cons kv rest =>
    obtain ⟨k0, v0⟩ := kv
    by_cases h : k0 = k
    · rw [assocSet_cons_eq h]
      simp
    · rw [assocSet_cons_ne h]
      simp

theorem mem_keys_assocSet {α : Type} (l : List (String × α)) (k k' : String) (v : α) :
    k' ∈ (assocSet l k v).map Prod.fst ↔ k' ∈ l.map Prod.fst ∨ k' = k := by
  induction l with
  | nil => simp [assocSet]
  | cons kv rest ih =>
    obtain ⟨k0, v0⟩ := kv
    by_cases h : k0 = k
    · rw [assocSet_cons_eq h]
      subst h
      simp only [List.map_cons, List.mem_cons]
      tauto
    · rw [assocSet_cons_ne h]
      simp only [List.map_cons, List.mem_cons, ih]
      tauto

theorem nodup_keys_assocSet {α : Type} (l : List (String × α)) (k : String) (v : α)
    (h : (l.map Prod.fst).Nodup) : ((assocSet l k v).map Prod.fst).Nodup := by
  induction l with
  | nil => simp [assocSet]
  | cons kv rest ih =>
    obtain ⟨k0, v0⟩ := kv
    simp only [List.map_cons, List.nodup_cons] at h
    by_cases h0 : k0 = k
    · rw [assocSet_cons_eq h0]
      subst h0
      simpa [List.nodup_cons] using h
    · rw [assocSet_cons_ne h0]
      simp only [List.map_cons, List.nodup_cons]
      refine ⟨fun hmem => ?_, ih h.2⟩
      rcases (mem_keys_assocSet rest k k0 v).mp hmem with h1 | h1
      · exact h.1 h1
      · exact h0 h1

theorem mem_assocSet {α : Type} {l : List (String × α)} {k : String} {v : α}
    {kv : String × α} (h : kv ∈ assocSet l k v) : kv ∈ l ∨ kv = (k, v) := by
  induction l with
  | nil => simpa [assocSet] using h
  | cons kv0 rest ih =>
    obtain ⟨k0, v0⟩ := kv0
    by_cases h0 : k0 = k
    · rw [assocSet_cons_eq h0] at h
      rcases List.mem_cons.mp h with h1 | h1
      · exact Or.inr h1
      · exact Or.inl (List.mem_cons_of_mem _ h1)
    · rw [assocSet_cons_ne h0] at h
      rcases List.mem_cons.mp h with h1 | h1
      · exact Or.inl (by simp [h1])
      · rcases ih h1 with h2 | h2
        · exact Or.inl (List.mem_cons_of_mem _ h2)
        · exact Or.inr h2

theorem alookup_eq_of_mem {α : Type} {l : List (String × α)} {k : String} {v : α}
    (hnd : (l.map Prod.fst).Nodup) (h : (k, v) ∈ l) : alookup l k = some v := by
  induction l with
  | nil => simp at h
  | cons kv0 rest ih =>
    obtain ⟨k0, v0⟩ := kv0
    simp only [List.map_cons, List.nodup_cons] at hnd
    rcases List.mem_cons.mp h with h1 | h1
    · simp only [Prod.mk.injEq] at h1
      obtain ⟨h2, h3⟩ := h1
      subst h2
      subst h3
      simp [alookup]
    · have hne : k0 ≠ k := by
        intro he
        exact hnd.1 (he ▸ List.mem_map_of_mem Prod.fst h1)
      simp [alookup, hne, ih hnd.2 h1]

/-! ## Lemmas about one scan-loop step -/

theorem childTarget_some {l : Line} {pid fn : String} (h : childTarget l = some (pid, fn)) :
    ∃ gid res, alookup l "__parentId" = some pid ∧ alookup l "id" = some gid ∧
      concludeObjectType gid = Except.ok (res, fn) := by
  unfold childTarget at h
  cases hA : alookup l "__parentId" with
  | none => simp [hA] at h
  | some p =>
    simp only [hA] at h
    cases hB : alookup l "id" with
    | none => simp [hB] at h
    | some g =>
      simp only [hB] at h
      cases hC : concludeObjectType g with
      | error e => simp [hC] at h
      | ok pr =>
        obtain ⟨r, f⟩ := pr
        simp only [hC, Option.some.injEq, Prod.mk.injEq] at h
        obtain ⟨h1, h2⟩ := h
        subst h1
        subst h2
        exact ⟨g, r, rfl, rfl, hC⟩

theorem childTarget_of_parent {l : Line} (h : alookup l "__parentId" = none) :
    childTarget l = none := by
  simp [childTarget, h]

theorem processLine_parent (st : ParseState) (l : Line)
    (h : alookup l "__parentId" = none) :
    processLine st l =
      Except.ok ⟨st.out ++ [{ line := l, fields := [] }], st.childrenLookup⟩ := by
  simp [processLine, h]

theorem processLine_child (st : ParseState) (l : Line) (pid0 fn0 : String)
    (h : childTarget l = some (pid0, fn0)) :
    processLine st l = Except.ok ⟨st.out,
      assocSet st.childrenLookup pid0
        (assocSet ((alookup st.childrenLookup pid0).getD [])
          fn0 ((alookup ((alookup st.childrenLookup pid0).getD []) fn0).getD [] ++ [l]))⟩ := by
  obtain ⟨gid, res, hA, hB, hC⟩ := childTarget_some h
  simp [processLine, hA, hB, hC]

theorem processLine_error (st : ParseState) (l : Line) (h : lineOk l = false) :
    ∃ e, processLine st l = Except.error e := by
  unfold lineOk isParentLine at h
  rw [Bool.or_eq_false_iff] at h
  obtain ⟨h1, h2⟩ := h
  cases hA : alookup l "__parentId" with
  | none => rw [hA] at h1; simp at h1
  | some p =>
    unfold processLine
    simp only [hA]
    cases hB : alookup l "id" with
    | none =>
      simp only [hB]
      exact ⟨_, rfl⟩
    | some g =>
      simp only [hB]
      cases hC : concludeObjectType g with
      | error e =>
        simp only [hC]
        exact ⟨e, rfl⟩
      | ok pr =>
        obtain ⟨r, f⟩ := pr
        have hct : childTarget l = some (p, f) := by
          simp [childTarget, hA, hB, hC]
        rw [hct] at h2
        simp at h2

theorem processLine_ok_lineOk {st st' : ParseState} {l : Line}
    (h : processLine st l = Except.ok st') : lineOk l = true := by
  by_cases hok : lineOk l = true
  · exact hok
  · obtain ⟨e, he⟩ := processLine_error st l (Bool.not_eq_true _ ▸ hok)
    rw [he] at h
    exact absurd h (by simp)

theorem isParentLine_false_of_childTarget {l : Line} {pr : String × String}
    (h : childTarget l = some pr) : isParentLine l = false := by
  obtain ⟨pid, fn⟩ := pr
  obtain ⟨gid, res, hA, _, _⟩ := childTarget_some h
  simp [isParentLine, hA]

theorem childrenFor_cons (l : Line) (ls : List Line) (pid fn : String) :
    childrenFor (l :: ls) pid fn =
      (if childTarget l = some (pid, fn) then [l] else []) ++ childrenFor ls pid fn := by
  unfold childrenFor
  rw [List.filter_cons]
  by_cases h : childTarget l = some (pid, fn) <;> simp [h]

theorem child_step_effect (st : ParseState) (l : Line) (pid0 fn0 : String)
    (h : childTarget l = some (pid0, fn0)) (st' : ParseState)
    (hp : processLine st l = Except.ok st') :
    st'.out = st.out ∧
    (∀ pid fn, lookupChildren st' pid fn =
      lookupChildren st pid fn ++ (if childTarget l = some (pid, fn) then [l] else [])) ∧
    (tblWF st.childrenLookup → tblWF st'.childrenLookup) ∧
    st'.childrenLookup ≠ [] := by
  rw [processLine_child st l pid0 fn0 h] at hp
  injection hp with hst
  subst hst
  refine ⟨rfl, ?_, ?_, assocSet_ne_nil _ _ _⟩
  · intro pid fn
    rw [h]
    by_cases hpid : pid = pid0
    · rw [hpid]
      by_cases hfn : fn = fn0
      · rw [hfn]
        rw [if_pos rfl]
        unfold lookupChildren
        simp only [alookup_assocSet_self, Option.getD_some]
      · have hcond : ¬(some (pid0, fn0) = some (pid0, fn)) := by
          intro he
          simp only [Option.some.injEq, Prod.mk.injEq] at he
          exact hfn he.2.symm
        rw [if_neg hcond]
        unfold lookupChildren
        simp only [alookup_assocSet_self, Option.getD_some]
        rw [alookup_assocSet_ne _ _ _ _ hfn]
        simp
    · have hcond : ¬(some (pid0, fn0) = some (pid, fn)) := by
        intro he
        simp only [Option.some.injEq, Prod.mk.injEq] at he
        exact hpid he.1.symm
      rw [if_neg hcond]
      unfold lookupChildren
      rw [alookup_assocSet_ne _ _ _ _ hpid]
      simp
  · intro hwf pid ch2 hch2
    have hch : (((alookup st.childrenLookup pid0).getD []).map Prod.fst).Nodup ∧
        ∀ kv ∈ (alookup st.childrenLookup pid0).getD [], kv.2 ≠ ([] : List Line) := by
      cases hc : alookup st.childrenLookup pid0 with
      | none => simp
      | some c => simpa using hwf pid0 c hc
    by_cases hpid : pid = pid0
    · rw [hpid, alookup_assocSet_self] at hch2
      have hch2' : ch2 = assocSet ((alookup st.childrenLookup pid0).getD []) fn0
          ((alookup ((alookup st.childrenLookup pid0).getD []) fn0).getD [] ++ [l]) := by
        injection hch2 with he
        exact he.symm
      rw [hch2']
      refine ⟨nodup_keys_assocSet _ _ _ hch.1, ?_⟩
      intro kv hkv
      rcases mem_assocSet hkv with h1 | h1
      · exact hch.2 kv h1
      · rw [h1]
        simp
    · rw [alookup_assocSet_ne _ _ _ _ hpid] at hch2
      exact hwf pid ch2 hch2

/-! ## The scan loop characterized -/

theorem runLoop_none_lineOk : ∀ (ls : List Line) (st : ParseState) (t : Option Line),
    (runLoop st ls t).2 = none → ∀ l ∈ ls, lineOk l = true := by
  intro ls
  induction ls with
  | nil =>
    intro st t h l hl
    simp at hl
  | cons l0 ls ih =>
    intro st t h l hl
    unfold runLoop at h
    cases hp : processLine st l0 with
    | error e =>
      rw [hp] at h
      simp at h
    | ok st1 =>
      rw [hp] at h
      simp only at h
      rcases List.mem_cons.mp hl with h1 | h1
      · exact h1 ▸ processLine_ok_lineOk hp
      · exact ih st1 t h l h1

theorem runLoop_ok : ∀ (ls : List Line) (st : ParseState) (t : Option Line),
    (∀ l ∈ ls, lineOk l = true) →
    ∃ st', runLoop st ls t = (st', none) ∧
      st'.out = st.out ++ (ls.filter isParentLine).map (fun l => { line := l, fields := [] }) ∧
      (∀ pid fn, lookupChildren st' pid fn = lookupChildren st pid fn ++ childrenFor ls pid fn) ∧
      (tblWF st.childrenLookup → tblWF st'.childrenLookup) ∧
      (st'.childrenLookup = [] ↔
        st.childrenLookup = [] ∧ ∀ l ∈ ls, isParentLine l = true) := by
  intro ls
  induction ls with
  | nil =>
    intro st t h
    refine ⟨st, rfl, by simp, ?_, fun hw => hw, by simp⟩
    intro pid fn
    simp [childrenFor]
  | cons l0 ls ih =>
    intro st t h
    have hl0 : lineOk l0 = true := h l0 (List.mem_cons_self _ _)
    have hrest : ∀ l ∈ ls, lineOk l = true := fun l hl => h l (List.mem_cons_of_mem _ hl)
    by_cases hpar : isParentLine l0 = true
    · have hA : alookup l0 "__parentId" = none := by
        unfold isParentLine at hpar
        exact Option.isNone_iff_eq_none.mp hpar
      have hp := processLine_parent st l0 hA
      obtain ⟨st', hrun, hout, hch, hwf, hemp⟩ :=
        ih ⟨st.out ++ [{ line := l0, fields := [] }], st.childrenLookup⟩ t hrest
      refine ⟨st', ?_, ?_, ?_, hwf, ?_⟩
      · unfold runLoop
        rw [hp]
        exact hrun
      · rw [hout]
        simp [List.filter_cons, hpar]
      · intro pid fn
        rw [hch pid fn]
        have : childrenFor (l0 :: ls) pid fn = childrenFor ls pid fn := by
          rw [childrenFor_cons, childTarget_of_parent hA]
          simp
        rw [this]
        rfl
      · rw [hemp]
        simp only [List.mem_cons]
        constructor
        · rintro ⟨h1, h2⟩
          exact ⟨h1, fun l hl => hl.elim (fun he => he ▸ hpar) (h2 l)⟩
        · rintro ⟨h1, h2⟩
          exact ⟨h1, fun l hl => h2 l (Or.inr hl)⟩
    · have hct : (childTarget l0).isSome = true := by
        unfold lineOk at hl0
        rcases Bool.or_eq_true_iff.mp hl0 with h1 | h1
        · exact absurd h1 hpar
        · exact h1
      obtain ⟨pr, hpr⟩ := Option.isSome_iff_exists.mp hct
      obtain ⟨pid0, fn0⟩ := pr
      have hp : ∃ st1, processLine st l0 = Except.ok st1 := by
        obtain ⟨gid, res, hA, hB, hC⟩ := childTarget_some hpr
        exact ⟨_, processLine_child st l0 pid0 fn0 hpr⟩
      obtain ⟨st1, hp⟩ := hp
      obtain ⟨heout, hech, hewf, hene⟩ := child_step_effect st l0 pid0 fn0 hpr st1 hp
      obtain ⟨st', hrun, hout, hch, hwf, hemp⟩ := ih st1 t hrest
      refine ⟨st', ?_, ?_, ?_, fun hw => hwf (hewf hw), ?_⟩
      · unfold runLoop
        rw [hp]
        exact hrun
      · rw [hout, heout]
        have : isParentLine l0 = false := isParentLine_false_of_childTarget hpr
        simp [List.filter_cons, this]
      · intro pid fn
        rw [hch pid fn, hech pid fn, childrenFor_cons]
        simp [List.append_assoc]
      · rw [hemp]
        constructor
        · rintro ⟨h1, _⟩
          exact absurd h1 hene
        · rintro ⟨_, h2⟩
          have := h2 l0 (List.mem_cons_self _ _)
          rw [isParentLine_false_of_childTarget hpr] at this
          exact absurd this (by simp)

/-! ## The reconciliation phase characterized -/

theorem alookup_eq_none_of_not_mem_keys {α : Type} {l : List (String × α)} {k : String}
    (h : k ∉ l.map Prod.fst) : alookup l k = none := by
  induction l with
  | nil => rfl
  | cons kv rest ih =>
    obtain ⟨k0, v0⟩ := kv
    simp only [List.map_cons, List.mem_cons] at h
    push_neg at h
    have hne : ¬k0 = k := fun he => h.1 (he ▸ rfl)
    simp [alookup, hne, ih h.2]

theorem attachChildren_line (hasField : String → Bool) :
    ∀ (ch : List (String × List Line)) (p : ParentRec),
    (attachChildren hasField p ch).1.line = p.line := by
  intro ch
  induction ch with
  | nil => intro p; rfl
  | cons kv rest ih =>
    intro p
    obtain ⟨k, v⟩ := kv
    unfold attachChildren
    by_cases hk : hasField k = true
    · rw [if_pos hk]
      exact ih _
    · rw [if_neg hk]

theorem attachChildren_none_hasField (hasField : String → Bool) :
    ∀ (ch : List (String × List Line)) (p : ParentRec),
    (attachChildren hasField p ch).2 = none → ∀ kv ∈ ch, hasField kv.1 = true := by
  intro ch
  induction ch with
  | nil =>
    intro p _ kv hkv
    simp at hkv
  | cons kv0 rest ih =>
    intro p h kv hkv
    obtain ⟨k, v⟩ := kv0
    unfold attachChildren at h
    by_cases hk : hasField k = true
    · rw [if_pos hk] at h
      rcases List.mem_cons.mp hkv with h1 | h1
      · rw [h1]
        exact hk
      · exact ih _ h kv h1
    · rw [if_neg hk] at h
      simp at h

theorem attachChildren_ok (hasField : String → Bool) :
    ∀ (ch : List (String × List Line)) (p : ParentRec),
    (∀ kv ∈ ch, hasField kv.1 = true) → (attachChildren hasField p ch).2 = none := by
  intro ch
  induction ch with
  | nil => intro p _; rfl
  | cons kv0 rest ih =>
    intro p h
    obtain ⟨k, v⟩ := kv0
    unfold attachChildren
    rw [if_pos (h (k, v) (List.mem_cons_self _ _))]
    exact ih _ fun kv hkv => h kv (List.mem_cons_of_mem _ hkv)

theorem attachChildren_alookup (hasField : String → Bool) :
    ∀ (ch : List (String × List Line)) (p : ParentRec),
    (ch.map Prod.fst).Nodup →
    (∀ k ∈ ch.map Prod.fst, alookup p.fields k = none) →
    (∀ kv ∈ ch, hasField kv.1 = true) →
    ∀ fn, alookup (attachChildren hasField p ch).1.fields fn =
      (match alookup ch fn with
       | some v => some v
       | none => alookup p.fields fn) := by
  intro ch
  induction ch with
  | nil =>
    intro p _ _ _ fn
    rfl
  | cons kv0 rest ih =>
    intro p hnd hdisj hok fn
    obtain ⟨k, v⟩ := kv0
    simp only [List.map_cons, List.nodup_cons] at hnd
    unfold attachChildren
    rw [if_pos (hok (k, v) (List.mem_cons_self _ _))]
    have hdisj' : ∀ k' ∈ rest.map Prod.fst,
        alookup (assocSet p.fields k v) k' = none := by
      intro k' hk'
      have hne : k' ≠ k := fun he => hnd.1 (he ▸ hk')
      rw [alookup_assocSet_ne _ _ _ _ hne]
      exact hdisj k' (List.mem_cons_of_mem _ hk')
    have hok' : ∀ kv ∈ rest, hasField kv.1 = true :=
      fun kv hkv => hok kv (List.mem_cons_of_mem _ hkv)
    rw [ih _ hnd.2 hdisj' hok' fn]
    by_cases hfn : k = fn
    · rw [hfn]
      rw [alookup_eq_none_of_not_mem_keys (hfn ▸ hnd.1)]
      rw [alookup_assocSet_self]
      simp [alookup]
    · have h1 : alookup ((k, v) :: rest) fn = alookup rest fn := by
        simp [alookup, hfn]
      rw [h1]
      cases h2 : alookup rest fn with
      | some v' => rfl
      | none =>
        simp only []
        exact alookup_assocSet_ne _ _ _ _ fun he => hfn he.symm

theorem reconcileAll_none (hasField : String → Bool)
    (tbl : List (String × List (String × List Line))) :
    ∀ (out out' : List ParentRec), reconcileAll hasField tbl out = (out', none) →
    ∀ p ∈ out, parentKey p ≠ "" ∧
      ∀ kv ∈ (alookup tbl (parentKey p)).getD [], hasField kv.1 = true := by
  intro out
  induction out with
  | nil =>
    intro out' h p hp
    simp at hp
  | cons p0 rest ih =>
    intro out' h p hp
    unfold reconcileAll at h
    by_cases hkey : parentKey p0 = ""
    · rw [if_pos hkey] at h
      simp at h
    · rw [if_neg hkey] at h
      cases hlook : alookup tbl (parentKey p0) with
      | none =>
        rw [hlook] at h
        simp only [Prod.mk.injEq] at h
        have hr : reconcileAll hasField tbl rest =
            ((reconcileAll hasField tbl rest).1, none) := by
          rw [← h.2]
        rcases List.mem_cons.mp hp with h1 | h1
        · rw [h1]
          refine ⟨hkey, ?_⟩
          rw [hlook]
          intro kv hkv
          simp at hkv
        · exact ih _ hr p h1
      | some ch =>
        rw [hlook] at h
        simp only [] at h
        cases hat : attachChildren hasField p0 ch with
        | mk p1 e2 =>
          rw [hat] at h
          cases e2 with
          | some e => simp at h
          | none =>
            simp only [Prod.mk.injEq] at h
            have hr : reconcileAll hasField tbl rest =
                ((reconcileAll hasField tbl rest).1, none) := by
              rw [← h.2]
            rcases List.mem_cons.mp hp with h1 | h1
            · rw [h1]
              refine ⟨hkey, ?_⟩
              rw [hlook]
              simp only [Option.getD_some]
              exact attachChildren_none_hasField hasField ch p0 (by rw [hat])
            · exact ih _ hr p h1

theorem reconcileAll_ok (hasField : String → Bool)
    (tbl : List (String × List (String × List Line))) :
    ∀ (out : List ParentRec),
    (∀ p ∈ out, parentKey p ≠ "" ∧
      ∀ kv ∈ (alookup tbl (parentKey p)).getD [], hasField kv.1 = true) →
    reconcileAll hasField tbl out = (out.map (attachAll hasField tbl), none) := by
  intro out
  induction out with
  | nil => intro _; rfl
  | cons p0 rest ih =>
    intro h
    have hp0 := h p0 (List.mem_cons_self _ _)
    have hrest := ih fun p hp => h p (List.mem_cons_of_mem _ hp)
    unfold reconcileAll
    rw [if_neg hp0.1]
    cases hlook : alookup tbl (parentKey p0) with
    | none =>
      simp only [hrest]
      simp [attachAll, hlook]
    | some ch =>
      have hok : ∀ kv ∈ ch, hasField kv.1 = true := by
        have h2 := hp0.2
        rw [hlook] at h2
        simpa using h2
      have hnone : (attachChildren hasField p0 ch).2 = none :=
        attachChildren_ok hasField ch p0 hok
      cases hat : attachChildren hasField p0 ch with
      | mk p1 e2 =>
        rw [hat] at hnone
        simp only at hnone
        rw [hnone] at hat
        simp only []
        rw [hat]
        simp only [hrest]
        simp [attachAll, hlook, hat]

/-! ## The full parse characterized -/

theorem tblWF_nil : tblWF [] := by
  intro pid ch h
  simp [alookup] at h

theorem childrenFor_nil_of_parents {ls : List Line}
    (h : ∀ l ∈ ls, isParentLine l = true) (pid fn : String) :
    childrenFor ls pid fn = [] := by
  unfold childrenFor
  rw [List.filter_eq_nil_iff]
  intro l hl
  have hA : alookup l "__parentId" = none :=
    Option.isNone_iff_eq_none.mp (h l hl)
  simp [childTarget_of_parent hA]

theorem attachAll_line (hasField : String → Bool)
    (tbl : List (String × List (String × List Line))) (p : ParentRec) :
    (attachAll hasField tbl p).line = p.line := by
  unfold attachAll
  cases alookup tbl (parentKey p) with
  | none => rfl
  | some ch => exact attachChildren_line hasField ch p

theorem attachAll_parentKey (hasField : String → Bool)
    (tbl : List (String × List (String × List Line))) (p : ParentRec) :
    parentKey (attachAll hasField tbl p) = parentKey p := by
  unfold parentKey
  rw [attachAll_line]

theorem parseBulkQueryResult_success_char (hasField : String → Bool) (f : ResultFile)
    (out : List ParentRec) (h : parseBulkQueryResult hasField f = (out, none)) :
    out.map ParentRec.line = f.lines.filter isParentLine ∧
    ∀ p ∈ out, ∀ fn, childrenOf p fn = childrenFor f.lines (parentKey p) fn := by
  unfold parseBulkQueryResult at h
  cases hrun : runLoop ⟨[], []⟩ f.lines f.trailing with
  | mk st e =>
    rw [hrun] at h
    cases e with
    | some e0 => simp at h
    | none =>
      simp only [] at h
      have hok : ∀ l ∈ f.lines, lineOk l = true :=
        runLoop_none_lineOk f.lines ⟨[], []⟩ f.trailing (by rw [hrun])
      obtain ⟨st', hrun', hout, hch, hwf, hemp⟩ := runLoop_ok f.lines ⟨[], []⟩ f.trailing hok
      rw [hrun] at hrun'
      injection hrun' with hst hnone
      subst hst
      simp only [List.nil_append] at hout
      have hch' : ∀ pid fn, lookupChildren st pid fn = childrenFor f.lines pid fn := by
        intro pid fn
        have := hch pid fn
        simpa [lookupChildren, alookup] using this
      have hwf' : tblWF st.childrenLookup := hwf tblWF_nil
      have hfieldsnil : ∀ q ∈ st.out, q.fields = ([] : List (String × List Line)) := by
        intro q hq
        rw [hout] at hq
        obtain ⟨l, _, hl2⟩ := List.mem_map.mp hq
        rw [← hl2]
      cases htbl : st.childrenLookup with
      | nil =>
        rw [htbl] at h
        simp only [] at h
        injection h with hout2 _
        subst hout2
        have hpar : ∀ l ∈ f.lines, isParentLine l = true := (hemp.mp htbl).2
        constructor
        · rw [hout, List.map_map]
          have hid : ∀ l ∈ f.lines.filter isParentLine,
              (ParentRec.line ∘ fun l => ({ line := l, fields := [] } : ParentRec)) l =
                id l := fun l _ => rfl
          rw [List.map_congr_left hid, List.map_id]
        · intro p hp fn
          have hfp : p.fields = [] := hfieldsnil p hp
          unfold childrenOf
          rw [hfp]
          rw [childrenFor_nil_of_parents hpar]
          rfl
      | cons k0 rest0 =>
        rw [htbl] at h
        simp only [] at h
        rw [← htbl] at h
        have hpre := reconcileAll_none hasField st.childrenLookup st.out out h
        have hrec := reconcileAll_ok hasField st.childrenLookup st.out hpre
        rw [hrec] at h
        injection h with hout2 _
        subst hout2
        constructor
        · rw [List.map_map]
          have hal : ∀ q ∈ st.out,
              (ParentRec.line ∘ attachAll hasField st.childrenLookup) q =
                ParentRec.line q :=
            fun q _ => attachAll_line hasField st.childrenLookup q
          rw [List.map_congr_left hal, hout, List.map_map]
          have hid : ∀ l ∈ f.lines.filter isParentLine,
              (ParentRec.line ∘ fun l => ({ line := l, fields := [] } : ParentRec)) l =
                id l := fun l _ => rfl
          rw [List.map_congr_left hid, List.map_id]
        · intro p hp fn
          obtain ⟨q, hq, hq2⟩ := List.mem_map.mp hp
          rw [← hq2]
          rw [attachAll_parentKey]
          have hqf : q.fields = [] := hfieldsnil q hq
          have hqpre := hpre q hq
          unfold childrenOf attachAll
          cases hlq : alookup st.childrenLookup (parentKey q) with
          | none =>
            rw [hqf]
            rw [← hch' (parentKey q) fn]
            unfold lookupChildren
            rw [hlq]
            rfl
          | some ch =>
            have hnd : (ch.map Prod.fst).Nodup := (hwf' (parentKey q) ch hlq).1
            have hdisj : ∀ k ∈ ch.map Prod.fst, alookup q.fields k = none := by
              intro k _
              rw [hqf]
              rfl
            have hokch : ∀ kv ∈ ch, hasField kv.1 = true := by
              have h2 := hqpre.2
              rw [hlq] at h2
              simpa using h2
            rw [attachChildren_alookup hasField ch q hnd hdisj hokch fn]
            rw [← hch' (parentKey q) fn]
            unfold lookupChildren
            rw [hlq]
            simp only [Option.getD_some]
            cases hcf : alookup ch fn with
            | none =>
              rw [hqf]
              rfl
            | some v => rfl

theorem parse_none_lineOk (hasField : String → Bool) (f : ResultFile)
    (h : (parseBulkQueryResult hasField f).2 = none) : ∀ l ∈ f.lines, lineOk l = true := by
  intro l hl
  unfold parseBulkQueryResult at h
  cases hrun : runLoop ⟨[], []⟩ f.lines f.trailing with
  | mk st e =>
    rw [hrun] at h
    cases e with
    | some e0 => simp at h
    | none => exact runLoop_none_lineOk f.lines ⟨[], []⟩ f.trailing (by rw [hrun]) l hl

theorem lineOk_false_of_child_noid {l : Line} {pid : String}
    (hpid : alookup l "__parentId" = some pid) (hid : alookup l "id" = none) :
    lineOk l = false := by
  unfold lineOk isParentLine childTarget
  rw [hpid, hid]
  simp

theorem lineOk_false_of_child_badtype {l : Line} {pid gid e : String}
    (hpid : alookup l "__parentId" = some pid) (hid : alookup l "id" = some gid)
    (herr : concludeObjectType gid = Except.error e) :
    lineOk l = false := by
  unfold lineOk isParentLine childTarget
  rw [hpid, hid]
  simp [herr]

theorem processLine_noid (st : ParseState) (l : Line) (pid : String)
    (hpid : alookup l "__parentId" = some pid) (hid : alookup l "id" = none) :
    processLine st l = Except.error "Connection type must query `id` field" := by
  simp [processLine, hpid, hid]

theorem concludeObjectType_malformed {gid : String} (hres : gidResource gid = none) :
    concludeObjectType gid = Except.error ("malformed gid=`" ++ gid ++ "`") := by
  unfold concludeObjectType
  rw [hres]

theorem concludeObjectType_unknown {gid r : String} (hres : gidResource gid = some r)
    (hunk : knownResource r = false) :
    concludeObjectType gid = Except.error ("`" ++ r ++ "` not implemented type") := by
  unfold concludeObjectType
  rw [hres]
  simp [hunk]

theorem processLine_malformed (st : ParseState) (l : Line) (pid gid : String)
    (hpid : alookup l "__parentId" = some pid) (hid : alookup l "id" = some gid)
    (hres : gidResource gid = none) :
    processLine st l = Except.error ("malformed gid=`" ++ gid ++ "`") := by
  simp [processLine, hpid, hid, concludeObjectType_malformed hres]

theorem processLine_unknown_type (st : ParseState) (l : Line) (pid gid r : String)
    (hpid : alookup l "__parentId" = some pid) (hid : alookup l "id" = some gid)
    (hres : gidResource gid = some r) (hunk : knownResource r = false) :
    processLine st l = Except.error ("`" ++ r ++ "` not implemented type") := by
  simp [processLine, hpid, hid, concludeObjectType_unknown hres hunk]

theorem runLoop_trailing_irrelevant :
    ∀ (ls : List Line) (st : ParseState) (t t' : Option Line),
    runLoop st ls t = runLoop st ls t' := by
  intro ls
  induction ls with
  | nil =>
    intro st t t'
    rfl
  | cons l ls ih =>
    intro st t t'
    unfold runLoop
    cases processLine st l with
    | error e => rfl
    | ok st1 => exact ih st1 t t'

/-! ## The round-trip scenario -/

theorem roundtrip_scenario (hasField : String → Bool) (hHF : hasField "LineItems" = true)
    (pid : String) (hpid : pid ≠ "") (p c1 c2 : Line) (rest : List Line) (t : Option Line)
    (hp_parent : alookup p "__parentId" = none)
    (hp_id : alookup p "id" = some pid)
    (hrest_child : ∀ l ∈ rest, (alookup l "__parentId").isSome = true)
    (hrest_ok : ∀ l ∈ rest, lineOk l = true)
    (hfilter : rest.filter (fun l => decide (alookup l "__parentId" = some pid)) = [c1, c2])
    (hc1 : childTarget c1 = some (pid, "LineItems"))
    (hc2 : childTarget c2 = some (pid, "LineItems")) :
    parseBulkQueryResult hasField ⟨p :: rest, t⟩ =
      ([{ line := p, fields := [("LineItems", [c1, c2])] }], none) := by
  have hallok : ∀ l ∈ p :: rest, lineOk l = true := by
    intro l hl
    rcases List.mem_cons.mp hl with h1 | h1
    · rw [h1]
      unfold lineOk isParentLine
      rw [hp_parent]
      simp
    · exact hrest_ok l h1
  obtain ⟨st', hrun, hout, hch, hwf, hemp⟩ := runLoop_ok (p :: rest) ⟨[], []⟩ t hallok
  have hch0 : ∀ pid' fn, lookupChildren st' pid' fn = childrenFor (p :: rest) pid' fn := by
    intro pid' fn
    have h := hch pid' fn
    rwa [show lookupChildren ⟨[], []⟩ pid' fn = [] from rfl, List.nil_append] at h
  have hppar : isParentLine p = true := by
    unfold isParentLine
    rw [hp_parent]
    rfl
  have hfilterp : (p :: rest).filter isParentLine = [p] := by
    rw [List.filter_cons, if_pos hppar]
    have hnil : rest.filter isParentLine = [] := by
      rw [List.filter_eq_nil_iff]
      intro l hl
      have hs := hrest_child l hl
      unfold isParentLine
      cases halk : alookup l "__parentId" with
      | none =>
        rw [halk] at hs
        simp at hs
      | some q => simp
    rw [hnil]
  have hout' : st'.out = [⟨p, []⟩] := by
    rw [hout, hfilterp]
    rfl
  have hcf : childrenFor (p :: rest) pid "LineItems" = [c1, c2] := by
    unfold childrenFor
    rw [List.filter_cons]
    have hpt : childTarget p = none := childTarget_of_parent hp_parent
    have hcong : ∀ l ∈ rest, decide (childTarget l = some (pid, "LineItems")) =
        decide (alookup l "__parentId" = some pid) := by
      intro l hl
      by_cases hq : alookup l "__parentId" = some pid
      · have hin : l ∈ rest.filter (fun l => decide (alookup l "__parentId" = some pid)) := by
          rw [List.mem_filter]
          exact ⟨hl, by simp [hq]⟩
        rw [hfilter] at hin
        have hct : childTarget l = some (pid, "LineItems") := by
          simp only [List.mem_cons, List.not_mem_nil, or_false] at hin
          rcases hin with h | h
          · rw [h]
            exact hc1
          · rw [h]
            exact hc2
        simp [hct, hq]
      · have hnct : ¬(childTarget l = some (pid, "LineItems")) := by
          intro hct
          obtain ⟨gid, res, hA, _, _⟩ := childTarget_some hct
          exact hq hA
        simp [hnct, hq]
    rw [List.filter_congr hcong, hfilter]
    simp [hpt]
  have hl1 : lookupChildren st' pid "LineItems" = [c1, c2] := by
    rw [hch0, hcf]
  have hwf' : tblWF st'.childrenLookup := hwf tblWF_nil
  cases hoch : alookup st'.childrenLookup pid with
  | none =>
    exfalso
    have hz : lookupChildren st' pid "LineItems" = [] := by
      unfold lookupChildren
      rw [hoch]
      rfl
    rw [hl1] at hz
    simp at hz
  | some ch =>
    have hkv : ∀ kv ∈ ch, kv = ("LineItems", [c1, c2]) := by
      intro kv hmem
      obtain ⟨hnd, hne⟩ := hwf' pid ch hoch
      have halk : alookup ch kv.1 = some kv.2 := alookup_eq_of_mem hnd hmem
      have hlc : lookupChildren st' pid kv.1 = kv.2 := by
        unfold lookupChildren
        rw [hoch]
        simp [halk]
      have hcfv : childrenFor (p :: rest) pid kv.1 = kv.2 := by
        rw [← hch0, hlc]
      have hne2 : kv.2 ≠ [] := hne kv hmem
      rcases hkv2 : kv.2 with _ | ⟨c, cs⟩
      · exact absurd hkv2 hne2
      · have hcmem : c ∈ childrenFor (p :: rest) pid kv.1 := by
          rw [hcfv, hkv2]
          exact List.mem_cons_self _ _
        unfold childrenFor at hcmem
        rw [List.mem_filter] at hcmem
        obtain ⟨hcin, hcpred⟩ := hcmem
        have hct : childTarget c = some (pid, kv.1) := of_decide_eq_true hcpred
        have hcrest : c ∈ rest := by
          rcases List.mem_cons.mp hcin with h | h
          · exfalso
            rw [h, childTarget_of_parent hp_parent] at hct
            exact absurd hct (by simp)
          · exact h
        obtain ⟨gid, res, hA, _, _⟩ := childTarget_some hct
        have hcin2 : c ∈ [c1, c2] := by
          rw [← hfilter, List.mem_filter]
          exact ⟨hcrest, by simp [hA]⟩
        have hctLI : childTarget c = some (pid, "LineItems") := by
          simp only [List.mem_cons, List.not_mem_nil, or_false] at hcin2
          rcases hcin2 with h | h
          · rw [h]
            exact hc1
          · rw [h]
            exact hc2
        have hfn : kv.1 = "LineItems" := by
          rw [hct] at hctLI
          simp only [Option.some.injEq, Prod.mk.injEq] at hctLI
          exact hctLI.2
        have hsnd : kv.2 = [c1, c2] := by
          rw [← hcfv, hfn, hcf]
        calc kv = (kv.1, kv.2) := rfl
        _ = ("LineItems", [c1, c2]) := by rw [hfn, hsnd]
    have hch_eq : ch = [("LineItems", [c1, c2])] := by
      obtain ⟨hnd, _⟩ := hwf' pid ch hoch
      cases ch with
      | nil =>
        exfalso
        have hz : lookupChildren st' pid "LineItems" = [] := by
          unfold lookupChildren
          rw [hoch]
          rfl
        rw [hl1] at hz
        simp at hz
      | cons kv0 chrest =>
        have h0 : kv0 = ("LineItems", [c1, c2]) := hkv kv0 (List.mem_cons_self _ _)
        cases chrest with
        | nil => rw [h0]
        | cons kv1 r2 =>
          exfalso
          have h1 : kv1 = ("LineItems", [c1, c2]) := hkv kv1 (by simp)
          simp only [List.map_cons, List.nodup_cons] at hnd
          apply hnd.1
          rw [h0, h1]
          simp
    have htne : st'.childrenLookup ≠ [] := by
      intro he
      rw [he] at hoch
      exact absurd hoch (by simp [alookup])
    unfold parseBulkQueryResult
    rw [hrun]
    simp only []
    cases htl : st'.childrenLookup with
    | nil => exact absurd htl htne
    | cons k0 r0 =>
      simp only []
      rw [← htl, hout']
      unfold reconcileAll
      have hkey : parentKey ⟨p, []⟩ = pid := by
        unfold parentKey
        simp [hp_id]
      rw [hkey]
      rw [if_neg hpid]
      rw [hoch, hch_eq]
      simp only []
      have hac : attachChildren hasField ⟨p, []⟩ [("LineItems", [c1, c2])] =
          ({ line := p, fields := [("LineItems", [c1, c2])] }, none) := by
        unfold attachChildren
        rw [if_pos hHF]
        rfl
      rw [hac]
      rfl

/-! ## The claims -/

/-- C1: a stream of one parent line with identifier `pid` followed by two
child lines carrying `__parentId = pid` and `LineItem`-tagged identifiers
parses to exactly one parent record whose `LineItems` field holds exactly
those two children in stream order, regardless of interleaving with other
parents' children; and in general, on every successful parse, parent
record order equals arrival order (the output lines are the parent lines
of the stream, in order) and child order within a (parent, field) pair
equals arrival order (each field holds the stream-order filter of the
child lines targeting it). -/
theorem claim1_roundtrip_and_ordering
    (hasField : String → Bool) (hHF : hasField "LineItems" = true)
    (pid : String) (hpid : pid ≠ "")
    (p c1 c2 : Line) (rest : List Line) (t : Option Line)
    (hp_parent : alookup p "__parentId" = none)
    (hp_id : alookup p "id" = some pid)
    (hrest_child : ∀ l ∈ rest, (alookup l "__parentId").isSome = true)
    (hrest_ok : ∀ l ∈ rest, lineOk l = true)
    (hfilter : rest.filter (fun l => decide (alookup l "__parentId" = some pid)) = [c1, c2])
    (hc1 : childTarget c1 = some (pid, "LineItems"))
    (hc2 : childTarget c2 = some (pid, "LineItems")) :
    parseBulkQueryResult hasField ⟨p :: rest, t⟩ =
      ([{ line := p, fields := [("LineItems", [c1, c2])] }], none) ∧
    ∀ (f : ResultFile) (out : List ParentRec),
      parseBulkQueryResult hasField f = (out, none) →
      out.map ParentRec.line = f.lines.filter isParentLine ∧
      ∀ q ∈ out, ∀ fn, childrenOf q fn = childrenFor f.lines (parentKey q) fn := by
  constructor
  · exact roundtrip_scenario hasField hHF pid hpid p c1 c2 rest t hp_parent hp_id
      hrest_child hrest_ok hfilter hc1 hc2
  · intro f out h
    exact parseBulkQueryResult_success_char hasField f out h

/-- C1 witness: the concrete round trip of the spec example, with an
orphan child of another parent interleaved between the two line items. -/
theorem claim1_roundtrip_and_ordering_witness :
    parseBulkQueryResult orderSchema
      ⟨[[("id", "gid://x/Order/1")],
        [("__parentId", "gid://x/Order/1"), ("id", "gid://shopify/LineItem/11")],
        [("__parentId", "gid://x/Order/2"), ("id", "gid://shopify/LineItem/13")],
        [("__parentId", "gid://x/Order/1"), ("id", "gid://shopify/LineItem/12")]], none⟩ =
      ([{ line := [("id", "gid://x/Order/1")],
          fields := [("LineItems",
            [[("__parentId", "gid://x/Order/1"), ("id", "gid://shopify/LineItem/11")],
             [("__parentId", "gid://x/Order/1"), ("id", "gid://shopify/LineItem/12")]])] }],
       none) :=
  (claim1_roundtrip_and_ordering orderSchema (by decide) "gid://x/Order/1" (by decide)
    [("id", "gid://x/Order/1")]
    [("__parentId", "gid://x/Order/1"), ("id", "gid://shopify/LineItem/11")]
    [("__parentId", "gid://x/Order/1"), ("id", "gid://shopify/LineItem/12")]
    [[("__parentId", "gid://x/Order/1"), ("id", "gid://shopify/LineItem/11")],
     [("__parentId", "gid://x/Order/2"), ("id", "gid://shopify/LineItem/13")],
     [("__parentId", "gid://x/Order/1"), ("id", "gid://shopify/LineItem/12")]]
    none (by decide) (by decide) (by decide) (by decide) (by decide) (by decide)
    (by decide)).1

/-- C2 counterexample: a stream whose single child line references
`gid://shopify/Order/2` while the only parent is `gid://shopify/Order/1`
parses with a nil error and one parent without children: the orphan child
is silently dropped, not reported, refuting the claimed orphan
detection. -/
theorem claim2_counterexample :
    parseBulkQueryResult orderSchema
      ⟨[[("id", "gid://shopify/Order/1")],
        [("__parentId", "gid://shopify/Order/2"), ("id", "gid://shopify/LineItem/7")]],
       none⟩ =
      ([{ line := [("id", "gid://shopify/Order/1")], fields := [] }], none) := by
  decide

/-- C2 amended: a child whose `__parentId` matches no parent identifier is
silently dropped rather than reported; every child actually attached to a
parent in a successful parse comes from a stream line whose `__parentId`
equals that parent's identifier, so the orphan's data simply appears
nowhere in the output. -/
theorem claim2_orphans_dropped (hasField : String → Bool) (f : ResultFile)
    (out : List ParentRec) (h : parseBulkQueryResult hasField f = (out, none))
    (q : ParentRec) (hq : q ∈ out) (fn : String) (cs : List Line)
    (hcs : alookup q.fields fn = some cs) (c : Line) (hc : c ∈ cs) :
    c ∈ f.lines ∧ alookup c "__parentId" = some (parentKey q) := by
  obtain ⟨_, hfields⟩ := parseBulkQueryResult_success_char hasField f out h
  have h1 : childrenOf q fn = childrenFor f.lines (parentKey q) fn := hfields q hq fn
  unfold childrenOf at h1
  rw [hcs] at h1
  simp only [Option.getD_some] at h1
  rw [h1] at hc
  unfold childrenFor at hc
  rw [List.mem_filter] at hc
  obtain ⟨hcin, hcpred⟩ := hc
  obtain ⟨gid, res, hA, _, _⟩ := childTarget_some (of_decide_eq_true hcpred)
  exact ⟨hcin, hA⟩

/-- C2 witness: in the concrete one-parent one-child round trip, the
attached child indeed appears in the stream with the parent's own
identifier as its parent reference. -/
theorem claim2_orphans_dropped_witness :
    [("__parentId", "gid://shopify/Order/5"), ("id", "gid://shopify/LineItem/6")] ∈
      ([[("id", "gid://shopify/Order/5")],
        [("__parentId", "gid://shopify/Order/5"), ("id", "gid://shopify/LineItem/6")]] :
        List Line) ∧
    alookup [("__parentId", "gid://shopify/Order/5"), ("id", "gid://shopify/LineItem/6")]
      "__parentId" =
      some (parentKey
        ⟨[("id", "gid://shopify/Order/5")],
         [("LineItems",
           [[("__parentId", "gid://shopify/Order/5"), ("id", "gid://shopify/LineItem/6")]])]⟩) :=
  claim2_orphans_dropped orderSchema
    ⟨[[("id", "gid://shopify/Order/5")],
      [("__parentId", "gid://shopify/Order/5"), ("id", "gid://shopify/LineItem/6")]], none⟩
    [⟨[("id", "gid://shopify/Order/5")],
      [("LineItems",
        [[("__parentId", "gid://shopify/Order/5"), ("id", "gid://shopify/LineItem/6")]])]⟩]
    (by decide)
    ⟨[("id", "gid://shopify/Order/5")],
     [("LineItems",
       [[("__parentId", "gid://shopify/Order/5"), ("id", "gid://shopify/LineItem/6")]])]⟩
    (by decide) "LineItems"
    [[("__parentId", "gid://shopify/Order/5"), ("id", "gid://shopify/LineItem/6")]]
    (by decide)
    [("__parentId", "gid://shopify/Order/5"), ("id", "gid://shopify/LineItem/6")]
    (by decide)

/-- C3 counterexample: on a stream whose second line is a child with the
unknown tag `Widget`, the parse does fail, but the caller-visible output
slice already holds the first parent appended before the failure, so the
out destination does hold a truncated result. -/
theorem claim3_counterexample :
    (parseBulkQueryResult orderSchema
      ⟨[[("id", "gid://shopify/Order/1")],
        [("__parentId", "gid://shopify/Order/1"), ("id", "gid://shopify/Widget/2")]],
       none⟩).2 ≠ none ∧
    (parseBulkQueryResult orderSchema
      ⟨[[("id", "gid://shopify/Order/1")],
        [("__parentId", "gid://shopify/Order/1"), ("id", "gid://shopify/Widget/2")]],
       none⟩).1 ≠ [] := by
  decide

/-- C3 amended: a child line whose identifier carries a resource tag
outside the resolver mapping makes the whole parse fail (non-nil error,
and that line itself always produces the not-implemented-type error), but
parent records scanned before the failure remain appended to the
caller-visible output slice. -/
theorem claim3_unknown_tag_fails (hasField : String → Bool) (f : ResultFile)
    (l : Line) (pid gid r : String) (hl : l ∈ f.lines)
    (hpid : alookup l "__parentId" = some pid) (hid : alookup l "id" = some gid)
    (hres : gidResource gid = some r) (hunk : knownResource r = false) :
    (parseBulkQueryResult hasField f).2 ≠ none ∧
    ∀ st : ParseState, processLine st l =
      Except.error ("`" ++ r ++ "` not implemented type") := by
  constructor
  · intro hnone
    have hok := parse_none_lineOk hasField f hnone l hl
    rw [lineOk_false_of_child_badtype hpid hid (concludeObjectType_unknown hres hunk)] at hok
    exact absurd hok (by simp)
  · intro st
    exact processLine_unknown_type st l pid gid r hpid hid hres hunk

/-- C3 witness: the unknown tag `Widget` makes the concrete parse fail. -/
theorem claim3_unknown_tag_fails_witness :
    (parseBulkQueryResult orderSchema
      ⟨[[("id", "gid://shopify/Order/1")],
        [("__parentId", "gid://shopify/Order/1"), ("id", "gid://shopify/Widget/2")]],
       none⟩).2 ≠ none :=
  (claim3_unknown_tag_fails orderSchema
    ⟨[[("id", "gid://shopify/Order/1")],
      [("__parentId", "gid://shopify/Order/1"), ("id", "gid://shopify/Widget/2")]], none⟩
    [("__parentId", "gid://shopify/Order/1"), ("id", "gid://shopify/Widget/2")]
    "gid://shopify/Order/1" "gid://shopify/Widget/2" "Widget"
    (by decide) (by decide) (by decide) (by decide) (by decide)).1

/-- C4: when a request fails with first error message Throttled and a cost
envelope is present (and the available budget is below the requested
cost), `do` sleeps exactly the integer ceiling of
(requestedCost - currentlyAvailable) / restoreRate seconds; in particular
requestedCost 10, currentlyAvailable 4 and restoreRate 2 give exactly 3
seconds. -/
theorem claim4_throttle_delay (out : GraphQLOut) (e : GraphQLError)
    (es : List GraphQLError) (ext : Extensions) (c : Cost)
    (herrs : out.errs = e :: es) (hmsg : e.message = "Throttled")
    (hext : out.extensions = some ext) (hcost : ext.cost = some c)
    (hlt : c.throttleStatus.currentlyAvailable < c.requestedQueryCost) :
    throttleSleepSeconds out =
      ⌈(c.requestedQueryCost - c.throttleStatus.currentlyAvailable) /
        c.throttleStatus.restoreRate⌉ ∧
    (c.requestedQueryCost = 10 → c.throttleStatus.currentlyAvailable = 4 →
      c.throttleStatus.restoreRate = 2 → throttleSleepSeconds out = 3) := by
  have h1 : throttleSleepSeconds out =
      ⌈(c.requestedQueryCost - c.throttleStatus.currentlyAvailable) /
        c.throttleStatus.restoreRate⌉ := by
    unfold throttleSleepSeconds
    rw [herrs, hext]
    simp only []
    rw [if_pos hmsg, hcost]
    simp only []
    rw [if_pos hlt]
  refine ⟨h1, ?_⟩
  intro h10 h4 h2
  rw [h1, h10, h4, h2]
  norm_num

/-- C4 witness: the concrete throttled envelope of the spec example sleeps
exactly 3 seconds. -/
theorem claim4_throttle_delay_witness :
    throttleSleepSeconds
      ⟨none, false, none, [⟨"Throttled"⟩], some ⟨some ⟨10, 0, ⟨1000, 4, 2⟩⟩⟩⟩ = 3 :=
  (claim4_throttle_delay
    ⟨none, false, none, [⟨"Throttled"⟩], some ⟨some ⟨10, 0, ⟨1000, 4, 2⟩⟩⟩⟩
    ⟨"Throttled"⟩ [] ⟨some ⟨10, 0, ⟨1000, 4, 2⟩⟩⟩ ⟨10, 0, ⟨1000, 4, 2⟩⟩
    rfl rfl rfl rfl (by decide)).2 rfl rfl rfl

/-- C5: for a throttled response (non-empty error list with first message
Throttled, cost envelope present) whose body decoded and whose data, when
present, unmarshals cleanly, `do` still returns the original
service-reported error list to the caller after the back-off sleep; the
embedded `do` issues exactly one request, so no resubmission can occur. -/
theorem claim5_throttled_error_still_returned (out : GraphQLOut) (e : GraphQLError)
    (es : List GraphQLError) (ext : Extensions) (c : Cost)
    (herrs : out.errs = e :: es) (hmsg : e.message = "Throttled")
    (hext : out.extensions = some ext) (hcost : ext.cost = some c)
    (hdec : out.decodeError = none)
    (hdata : out.dataPresent = false ∨ out.dataUnmarshalError = none) :
    doResult out = Except.error (DoError.serviceErrors out.errs) := by
  unfold doResult
  rw [hdec, herrs]
  cases hdp : out.dataPresent with
  | false => rfl
  | true =>
    rcases hdata with h | h
    · rw [hdp] at h
      exact absurd h (by simp)
    · rw [h]

/-- C5 witness: the concrete throttled response is surfaced as the original
service error list. -/
theorem claim5_throttled_error_still_returned_witness :
    doResult ⟨none, false, none, [⟨"Throttled"⟩], some ⟨some ⟨20, 0, ⟨1000, 5, 10⟩⟩⟩⟩ =
      Except.error (DoError.serviceErrors [⟨"Throttled"⟩]) :=
  claim5_throttled_error_still_returned
    ⟨none, false, none, [⟨"Throttled"⟩], some ⟨some ⟨20, 0, ⟨1000, 5, 10⟩⟩⟩⟩
    ⟨"Throttled"⟩ [] ⟨some ⟨20, 0, ⟨1000, 5, 10⟩⟩⟩ ⟨20, 0, ⟨1000, 5, 10⟩⟩
    rfl rfl rfl rfl rfl (Or.inl rfl)

/-- C6: whenever the polling loop of `WaitForCurrentBulkQuery` returns, the
snapshot it returns has a status outside the in-flight set (never CREATED,
RUNNING or CANCELING); this covers both the terminal statuses and the
zero snapshot accompanying a fetch error. -/
theorem claim6_wait_returns_terminal (polls : List (Except String CurrentBulkOperation))
    (q : CurrentBulkOperation) (e : Option String)
    (h : WaitForCurrentBulkQuery polls = some (q, e)) :
    statusInFlight q.status = false := by
  induction polls with
  | nil => simp [WaitForCurrentBulkQuery] at h
  | cons r rest ih =>
    cases r with
    | error msg =>
      unfold WaitForCurrentBulkQuery at h
      simp only [Option.some.injEq, Prod.mk.injEq] at h
      rw [← h.1]
      decide
    | ok q0 =>
      unfold WaitForCurrentBulkQuery at h
      by_cases hin : statusInFlight q0.status = true
      · rw [if_pos hin] at h
        exact ih h
      · rw [if_neg hin] at h
        simp only [Option.some.injEq, Prod.mk.injEq] at h
        rw [← h.1]
        exact Bool.not_eq_true _ ▸ hin

/-- C6 witness: a RUNNING poll followed by a COMPLETED poll returns the
COMPLETED snapshot, whose status is outside the in-flight set. -/
theorem claim6_wait_returns_terminal_witness :
    statusInFlight
      ({ zeroOp with status := "COMPLETED" } : CurrentBulkOperation).status = false :=
  claim6_wait_returns_terminal
    [Except.ok { zeroOp with status := "RUNNING" },
     Except.ok { zeroOp with status := "COMPLETED" }]
    { zeroOp with status := "COMPLETED" } none (by decide)

/-- C7: when the current bulk operation reaches COMPLETED with an empty
error code and a zero object count, `ShouldGetBulkQueryResultURL` (and
`GetCurrentBulkQueryResultURL`, which delegates with no expected
identifier) returns the empty URL together with no error. -/
theorem claim7_zero_objects_empty_url (fetch1 : Except String CurrentBulkOperation)
    (waitPolls : List (Except String CurrentBulkOperation)) (id : Option String)
    (q0 q2 : CurrentBulkOperation) (w : Option String)
    (h0 : fetch1 = Except.ok q0) (hid : id = none ∨ id = some q0.id)
    (hw : WaitForCurrentBulkQuery waitPolls = some (q2, w))
    (hs : q2.status = "COMPLETED") (he : q2.errorCode = "")
    (hc : q2.objectCount = "0") :
    ShouldGetBulkQueryResultURL fetch1 waitPolls id = some (Except.ok "") ∧
    GetCurrentBulkQueryResultURL fetch1 waitPolls = some (Except.ok "") := by
  have hmain : ∀ idv : Option String,
      (match idv with | some i => decide (q0.id ≠ i) | none => false) = false →
      ShouldGetBulkQueryResultURL fetch1 waitPolls idv = some (Except.ok "") := by
    intro idv hcond
    unfold ShouldGetBulkQueryResultURL
    rw [h0]
    simp only [hcond]
    rw [if_neg (by simp)]
    rw [hw]
    simp only []
    rw [if_neg (by rw [hs]; simp)]
    rw [if_neg (by rw [he]; simp)]
    rw [if_pos hc]
  constructor
  · apply hmain id
    rcases hid with h | h
    · rw [h]
    · rw [h]
      simp
  · unfold GetCurrentBulkQueryResultURL
    exact hmain none rfl

/-- C7 witness: a COMPLETED snapshot with empty error code and object
count zero yields the empty URL and no error through both entry points. -/
theorem claim7_zero_objects_empty_url_witness :
    ShouldGetBulkQueryResultURL
      (Except.ok { zeroOp with status := "RUNNING", objectCount := "0" })
      [Except.ok { zeroOp with status := "COMPLETED", objectCount := "0" }] none =
      some (Except.ok "") ∧
    GetCurrentBulkQueryResultURL
      (Except.ok { zeroOp with status := "RUNNING", objectCount := "0" })
      [Except.ok { zeroOp with status := "COMPLETED", objectCount := "0" }] =
      some (Except.ok "") :=
  claim7_zero_objects_empty_url
    (Except.ok { zeroOp with status := "RUNNING", objectCount := "0" })
    [Except.ok { zeroOp with status := "COMPLETED", objectCount := "0" }] none
    { zeroOp with status := "RUNNING", objectCount := "0" }
    { zeroOp with status := "COMPLETED", objectCount := "0" } none
    rfl (Or.inl rfl) (by decide) rfl rfl rfl

/-- C8: `CancelRunningBulkQuery` is a no-op when the current snapshot shows
no active job or an already-terminal job: whenever the fetched status is
neither CREATED nor RUNNING, no cancel mutation is issued and no error is
returned. -/
theorem claim8_cancel_idempotent (env : CancelEnv) (q : CurrentBulkOperation)
    (h1 : env.fetch1 = Except.ok q)
    (hc : q.status ≠ "CREATED") (hr : q.status ≠ "RUNNING") :
    CancelRunningBulkQuery env = some (false, none) := by
  unfold CancelRunningBulkQuery
  rw [h1]
  simp only []
  rw [if_neg (by simp [hc, hr])]

/-- C8 witness: a COMPLETED (terminal) snapshot makes the cancel call a
no-op with no error, whatever the mutation outcome would have been. -/
theorem claim8_cancel_idempotent_witness :
    CancelRunningBulkQuery
      ⟨Except.ok { zeroOp with status := "COMPLETED" }, Except.ok [], []⟩ =
      some (false, none) :=
  claim8_cancel_idempotent
    ⟨Except.ok { zeroOp with status := "COMPLETED" }, Except.ok [], []⟩
    { zeroOp with status := "COMPLETED" } rfl (by decide) (by decide)

/-- C9: a child line (one carrying `__parentId`) that lacks its own `id`
field makes the parse fail (processing that line yields the
connection-type error), and a child line whose identifier does not match
the global-identifier shape (the `gidRegex` submatch fails) makes the
parse fail with processing of that line yielding the malformed-gid
error. -/
theorem claim9_child_identifier_errors (hasField : String → Bool) (f : ResultFile)
    (l : Line) (pid : String) (hl : l ∈ f.lines)
    (hpid : alookup l "__parentId" = some pid)
    (hbad : alookup l "id" = none ∨
      ∃ gid, alookup l "id" = some gid ∧ gidResource gid = none) :
    (parseBulkQueryResult hasField f).2 ≠ none ∧
    (alookup l "id" = none → ∀ st : ParseState,
      processLine st l = Except.error "Connection type must query `id` field") ∧
    (∀ gid, alookup l "id" = some gid → gidResource gid = none →
      ∀ st : ParseState,
      processLine st l = Except.error ("malformed gid=`" ++ gid ++ "`")) := by
  refine ⟨?_, ?_, ?_⟩
  · intro hnone
    have hok := parse_none_lineOk hasField f hnone l hl
    rcases hbad with h | ⟨gid, hid, hres⟩
    · rw [lineOk_false_of_child_noid hpid h] at hok
      exact absurd hok (by simp)
    · rw [lineOk_false_of_child_badtype hpid hid (concludeObjectType_malformed hres)] at hok
      exact absurd hok (by simp)
  · intro hid st
    exact processLine_noid st l pid hpid hid
  · intro gid hid hres st
    exact processLine_malformed st l pid gid hpid hid hres

/-- C9 witness: a single-line stream whose child line has a malformed
identifier (three segments only) fails to parse. -/
theorem claim9_child_identifier_errors_witness :
    (parseBulkQueryResult orderSchema
      ⟨[[("__parentId", "gid://shopify/Order/9"), ("id", "gid://shopify/LineItem")]],
       none⟩).2 ≠ none :=
  (claim9_child_identifier_errors orderSchema
    ⟨[[("__parentId", "gid://shopify/Order/9"), ("id", "gid://shopify/LineItem")]], none⟩
    [("__parentId", "gid://shopify/Order/9"), ("id", "gid://shopify/LineItem")]
    "gid://shopify/Order/9" (by decide) (by decide)
    (Or.inr ⟨"gid://shopify/LineItem", by decide, by decide⟩)).1

/-- C10 counterexample: a file whose final record is unterminated does not
always parse successfully: when one of its newline-terminated lines is
erroneous (here a child line without an `id`), the parse returns an error
even though the final line is unterminated. -/
theorem claim10_counterexample :
    (parseBulkQueryResult orderSchema
      ⟨[[("__parentId", "gid://shopify/Order/3")]],
       some [("id", "gid://x/Order/3")]⟩).2 ≠ none := by
  decide

/-- C10 amended: the final record returned together with the end-of-file
condition is discarded without being decoded, so the parse of a file with
an unterminated final record is identical (same output, same error) to
the parse of the file without it; in particular, when the
newline-terminated lines parse and reconcile successfully, the result is
success with that final record absent. -/
theorem claim10_trailing_line_discarded (hasField : String → Bool)
    (ls : List Line) (t : Line) :
    parseBulkQueryResult hasField ⟨ls, some t⟩ =
      parseBulkQueryResult hasField ⟨ls, none⟩ := by
  unfold parseBulkQueryResult
  rw [runLoop_trailing_irrelevant ls ⟨[], []⟩ (some t) none]
